import Mathlib

/-!
Verification development for the MAX31865 RTD-to-digital driver crate.

The embedding covers the two core modules:
* `src/temp_conversion.rs` — the resistance-to-temperature lookup table
  (search + truncating-integer linear interpolation), its three constant
  tables, a fault-checked variant (`Option`-valued, modelling the Rust
  panic sites: slice indexing, `usize` underflow, division by zero), and a
  bit-level variant using wrapping 32-bit arithmetic (the semantics of the
  release-mode `i32` operations in the source).
* `src/lib.rs` — the SPI register transactions (chip-select framing,
  configuration byte packing, raw-value post-processing and the conversion
  pipeline), with bus/pin outcomes supplied as explicit parameters.
-/

namespace Max31865

/-! ## Conversion table (src/temp_conversion.rs) -/

/-- Shallow embedding of `LookupTable`. `min` and `step` are the `i16`
fields; `data` holds the `u16`/`u32` sample array, each element stored as
the nonnegative integer it denotes. -/
structure LookupTable where
  min : Int
  step : Int
  data : List Int

/-- Source `fn interpolate`: pairs are `(temperature, resistance)`.
Rust `i32` division truncates toward zero, i.e. `Int.tdiv`. Arithmetic is
idealized to unbounded integers; `interpolate32` below is the bit-level
`i32` version. -/
def interpolate (ohm_100 : Int) (first second : Int × Int) : Int :=
  Int.tdiv ((second.1 - first.1) * (ohm_100 - first.2)) (second.2 - first.2) + first.1

/-- Source `fn lookup` of the `LookupToI32` impls: `self.data[ind] as i32`.
Totalized with default `0`; in-bounds use is established separately and the
`Option`-valued variant below models the panic on an out-of-bounds index. -/
def lookup (t : LookupTable) (ind : Nat) : Int :=
  t.data.getD ind 0

/-- Source `fn reverse_index`:
`(self.min as i32 + (index * self.step as usize) as i32) * 100`. -/
def reverse_index (t : LookupTable) (index : Nat) : Int :=
  (t.min + index * t.step) * 100

/-- Source `fn ohm_lower_bound`: the value from which lower bound
interpolation should occur. -/
def ohm_lower_bound (t : LookupTable) : Int :=
  lookup t 1

/-- Source `fn ohm_upper_bound`: the value from which upper bound
interpolation should occur. -/
def ohm_upper_bound (t : LookupTable) : Int :=
  lookup t (t.data.length - 2)

/-- Source `fn interpolate_index`. -/
def interpolate_index (t : LookupTable) (ohm_100 : Int) (index : Nat) : Int :=
  interpolate ohm_100 (reverse_index t index, lookup t index)
    (reverse_index t (index + 1), lookup t (index + 1))

/-- First index whose entry is `≥ val` (the length when there is none).
On a strictly sorted list this is exactly the insertion point reported by
the standard-library binary search. -/
def insertionPoint : List Int → Int → Nat
  | [], _ => 0
  | x :: xs, val => if val ≤ x then 0 else insertionPoint xs val + 1

/-- Modelled from the contract of the Rust `core` slice `binary_search`
used by the `LookupToI32` impls (external standard-library code, not part
of this repository): on a sorted slice it returns `ok i` when the value is
found at index `i` and otherwise `error` of the insertion point. -/
def binary_search (data : List Int) (val : Int) : Except Nat Nat :=
  if insertionPoint data val < data.length ∧ data.getD (insertionPoint data val) 0 = val
  then .ok (insertionPoint data val)
  else .error (insertionPoint data val)

/-- The `match` on the binary-search result in `fn lookup_temperature`:
`Ok(val) => val, Err(val) => val - 1`.  The `val - 1` arm uses the
truncating `Nat` subtraction; the checked variant below verifies that the
`usize` underflow panic of the source is unreachable. -/
def searchIndex (data : List Int) (val : Int) : Nat :=
  match binary_search data val with
  | .ok v => v
  | .error v => v - 1

/-- Source `fn lookup_temperature`. -/
def lookup_temperature (t : LookupTable) (ohm_100 : Int) : Int :=
  if ohm_100 < ohm_lower_bound t then
    interpolate_index t ohm_100 0
  else if ohm_100 > ohm_upper_bound t then
    interpolate_index t ohm_100 (t.data.length - 2)
  else
    interpolate_index t ohm_100 (searchIndex t.data ohm_100)

/-- Source constant `LOOKUP_TABLE_PT100_SHORT` (`u16` data). -/
def LOOKUP_TABLE_PT100_SHORT : LookupTable :=
  { min := 0
    step := 20
    data := [10000, 10390, 10779, 11167, 11554, 11940, 12324, 12708, 13090,
             13471, 13851, 14229, 14607, 14983] }

/-- Source constant `LOOKUP_VEC_PT100` (`u32` data). -/
def LOOKUP_VEC_PT100 : LookupTable :=
  { min := -200
    step := 20
    data := [1852, 2710, 3554, 4388, 5211, 6026, 6833, 7633, 8427, 9216,
             10000, 10779, 11554, 12324, 13090, 13851, 14607, 15358, 16105,
             16848, 17586, 18319, 19047, 19771, 20490, 21205, 21915, 22621,
             23321, 24018, 24709, 25396, 26078, 26756, 27429, 28098, 28762,
             29421, 30075, 30725, 31371, 32012, 32648, 33279, 33906, 34528,
             35146, 35759, 36367, 36971] }

/-- Source constant `LOOKUP_VEC_PT1000` (`u32` data). -/
def LOOKUP_VEC_PT1000 : LookupTable :=
  { min := -200
    step := 20
    data := [18520, 27096, 35543, 43876, 52110, 60256, 68325, 76328, 84271,
             92160, 100000, 107794, 115541, 123242, 130897, 138505, 146068,
             153584, 161054, 168478, 175856, 183188, 190473, 197712, 204905,
             212052, 219152, 226206, 233214, 240176, 247092, 253961, 260785,
             267562, 274293, 280978, 287616, 294208, 300754, 307254, 313708,
             320116, 326477, 332792, 339061, 345284, 351460, 357590, 363674,
             369712] }

/-- Table entries representable on the source side: each lies in the
nonnegative `i32` range, so the `as i32` casts in `lookup` and the
`as u16` / `as u32` casts feeding the binary search are the identity on
every reachable branch.  All three shipped tables satisfy this. -/
def Entries32 (t : LookupTable) : Prop :=
  ∀ x ∈ t.data, 0 ≤ x ∧ x < 2 ^ 31

/-- A two-sample table satisfying the stated invariant (strictly
increasing samples, entries in the nonnegative `i32` range) whose single
segment is wide enough that the `i32` interpolation numerator wraps for
mid-segment inputs; it exhibits the divergence of the release binary from
the exact interpolation formula. -/
def LOOKUP_TABLE_WIDE : LookupTable :=
  { min := 0
    step := 20
    data := [0, 2000000000] }

/-! ### Fault-checked variant

`Option`-valued translation with the source's panic sites made explicit:
slice indexing out of bounds, the `val - 1` underflow on a `usize`, and
`i32` division by zero each yield `none`. -/

/-- Checked slice indexing `self.data[ind]`. -/
def lookupChecked (t : LookupTable) (ind : Nat) : Option Int :=
  t.data.get? ind

/-- Checked `fn interpolate`: division by zero is a panic in Rust. -/
def interpolateChecked (ohm_100 : Int) (first second : Int × Int) : Option Int :=
  if second.2 - first.2 = 0 then none
  else some (interpolate ohm_100 first second)

/-- Checked `fn interpolate_index`. -/
def interpolate_indexChecked (t : LookupTable) (ohm_100 : Int) (index : Nat) :
    Option Int := do
  let f ← lookupChecked t index
  let s ← lookupChecked t (index + 1)
  interpolateChecked ohm_100 (reverse_index t index, f)
    (reverse_index t (index + 1), s)

/-- Checked `fn lookup_temperature`: additionally guards the
`Err(val) => val - 1` arm against `usize` underflow (`val = 0`). -/
def lookup_temperatureChecked (t : LookupTable) (ohm_100 : Int) : Option Int := do
  let lb ← lookupChecked t 1
  let ub ← lookupChecked t (t.data.length - 2)
  if ohm_100 < lb then
    interpolate_indexChecked t ohm_100 0
  else if ohm_100 > ub then
    interpolate_indexChecked t ohm_100 (t.data.length - 2)
  else
    match binary_search t.data ohm_100 with
    | .ok val => interpolate_indexChecked t ohm_100 val
    | .error val =>
        if val = 0 then none else interpolate_indexChecked t ohm_100 (val - 1)

/-! ### Bit-level variant (release-mode `i32` wrapping semantics)

In a release build Rust integer arithmetic wraps modulo the machine width.
The variant below applies the `i32` wrap after every arithmetic step of the
source, so it is value-exact for the actual embedded binary. -/

/-- Two's-complement interpretation of an integer at width 32. -/
def wrap32 (n : Int) : Int :=
  (n + 2 ^ 31) % 2 ^ 32 - 2 ^ 31

/-- Reinterpretation `as u32` of an `i32` value (nonnegative representative
modulo `2^32`). -/
def u32cast (n : Int) : Int :=
  n % 2 ^ 32

/-- `fn interpolate` with every `i32` operation wrapped. -/
def interpolate32 (ohm_100 : Int) (first second : Int × Int) : Int :=
  let numerator := wrap32 (wrap32 (second.1 - first.1) * wrap32 (ohm_100 - first.2))
  let denominator := wrap32 (second.2 - first.2)
  wrap32 (wrap32 (Int.tdiv numerator denominator) + first.1)

/-- `fn lookup` at bit level: `as i32` reinterprets the stored `u32`. -/
def lookup32 (t : LookupTable) (ind : Nat) : Int :=
  wrap32 (t.data.getD ind 0)

/-- `fn reverse_index` at bit level: `index * (step as usize)` wraps at
width 64, its `as i32` reinterprets at width 32, and the remaining `i32`
steps wrap at width 32. -/
def reverse_index32 (t : LookupTable) (index : Nat) : Int :=
  wrap32 (wrap32 (t.min + wrap32 ((index * (t.step % 2 ^ 64)) % 2 ^ 64)) * 100)

/-- `fn interpolate_index` at bit level. -/
def interpolate_index32 (t : LookupTable) (ohm_100 : Int) (index : Nat) : Int :=
  interpolate32 ohm_100 (reverse_index32 t index, lookup32 t index)
    (reverse_index32 t (index + 1), lookup32 t (index + 1))

/-- `fn lookup_temperature` at bit level: the binary search compares in the
unsigned view (`val as u32` against the raw `u32` data). -/
def lookup_temperature32 (t : LookupTable) (ohm_100 : Int) : Int :=
  if ohm_100 < lookup32 t 1 then
    interpolate_index32 t ohm_100 0
  else if ohm_100 > lookup32 t (t.data.length - 2) then
    interpolate_index32 t ohm_100 (t.data.length - 2)
  else
    interpolate_index32 t ohm_100 (searchIndex t.data (u32cast ohm_100))

/-- Modelled from the spec: the claimed interpolation result for segment `i`,
`(temp[i+1] - temp[i]) * (r - res[i]) / (res[i+1] - res[i]) + temp[i]` with
truncating integer division, where `temp[j] = (min + j*step) * 100` is the
temperature grid and `res[j]` is the j-th table resistance. -/
def tempGrid (t : LookupTable) (j : Nat) : Int :=
  (t.min + j * t.step) * 100

/-- Modelled from the spec: see `tempGrid`. -/
def specInterpolation (t : LookupTable) (i : Nat) (r : Int) : Int :=
  Int.tdiv ((tempGrid t (i + 1) - tempGrid t i) * (r - t.data.getD i 0))
    (t.data.getD (i + 1) 0 - t.data.getD i 0) + tempGrid t i

/-! ## Device driver (src/lib.rs) -/

/-- Modeled level of the chip-select line: `low` is asserted, `high` is
deasserted. -/
inductive PinLevel
  | low
  | high
deriving DecidableEq

/-- Source `enum Error<E>`: the `E` payload of `SPIError` is abstracted
away. -/
inductive DriverError
  | SPIError
  | PinError
deriving DecidableEq

/-- Source `enum Register` with its fixed discriminants. -/
inductive Register
  | CONFIG
  | RTD_MSB
  | RTD_LSB
  | HIGH_FAULT_THRESHOLD_MSB
  | HIGH_FAULT_THRESHOLD_LSB
  | LOW_FAULT_THRESHOLD_MSB
  | LOW_FAULT_THRESHOLD_LSB
  | FAULT_STATUS
deriving DecidableEq

/-- Register discriminant (`*self as u8`). -/
def Register.addr : Register → Nat
  | .CONFIG => 0x00
  | .RTD_MSB => 0x01
  | .RTD_LSB => 0x02
  | .HIGH_FAULT_THRESHOLD_MSB => 0x03
  | .HIGH_FAULT_THRESHOLD_LSB => 0x04
  | .LOW_FAULT_THRESHOLD_MSB => 0x05
  | .LOW_FAULT_THRESHOLD_LSB => 0x06
  | .FAULT_STATUS => 0x07

/-- Source `const R: u8 = 0 << 7`. -/
def R : Nat := 0 <<< 7

/-- Source `const W: u8 = 1 << 7`. -/
def W : Nat := 1 <<< 7

/-- Source `fn read_address`. -/
def Register.read_address (reg : Register) : Nat :=
  reg.addr ||| R

/-- Source `fn write_address`. -/
def Register.write_address (reg : Register) : Nat :=
  reg.addr ||| W

/-- Source `enum SensorType`. -/
inductive SensorType
  | TwoOrFourWire
  | ThreeWire
deriving DecidableEq

/-- Discriminant of `SensorType` (`as u8`). -/
def SensorType.val : SensorType → Nat
  | .TwoOrFourWire => 0
  | .ThreeWire => 1

/-- Source `enum FilterMode`. -/
inductive FilterMode
  | Filter60Hz
  | Filter50Hz
deriving DecidableEq

/-- Discriminant of `FilterMode` (`as u8`). -/
def FilterMode.val : FilterMode → Nat
  | .Filter60Hz => 0
  | .Filter50Hz => 1

/-- The control byte packed by `Max31865::configure`:
`((vbias as u8) << 7) | ((conversion_mode as u8) << 6) | ((one_shot as u8) << 5)
 | ((sensor_type as u8) << 4) | (filter_mode as u8)`. -/
def configure_conf (vbias conversion_mode one_shot : Bool)
    (sensor_type : SensorType) (filter_mode : FilterMode) : Nat :=
  (vbias.toNat <<< 7) ||| (conversion_mode.toNat <<< 6) |||
    (one_shot.toNat <<< 5) ||| (sensor_type.val <<< 4) ||| filter_mode.val

/-- The byte frame `Max31865::write` puts on the bus:
`[reg.write_address(), val]`. -/
def write_frame (reg : Register) (val : Nat) : List Nat :=
  [reg.write_address, val % 256]

/-- The frame `configure` writes: `self.write(Register::CONFIG, conf)`. -/
def configure_frame (vbias conversion_mode one_shot : Bool)
    (sensor_type : SensorType) (filter_mode : FilterMode) : List Nat :=
  write_frame .CONFIG (configure_conf vbias conversion_mode one_shot sensor_type filter_mode)

/-- Outcome of the three fallible steps of one register transaction:
whether `ncs.set_low()`, the bus operation, and `ncs.set_high()` succeed. -/
structure TxnOutcome where
  setLowOk : Bool
  spiOk : Bool
  setHighOk : Bool

/-- Source `Max31865::write` (one register transaction):
`set_low()?; spi.write(..)?; set_high()?`.  Returns the result together
with the final chip-select level.  A failed pin operation leaves the
modeled level at the last successfully driven value. -/
def writeTxn (ncs : PinLevel) (o : TxnOutcome) : Except DriverError Unit × PinLevel :=
  if o.setLowOk then
    if o.spiOk then
      if o.setHighOk then (.ok (), .high)
      else (.error .PinError, .low)
    else (.error .SPIError, .low)
  else (.error .PinError, ncs)

/-- Source `Max31865::read_many` (one register transaction):
`set_low()?; spi.transfer(..)?; set_high()?`.  `response` is the byte the
bus returns in `buffer[1]` (a `u8`). -/
def readTxn (ncs : PinLevel) (o : TxnOutcome) (response : Nat) :
    Except DriverError Nat × PinLevel :=
  if o.setLowOk then
    if o.spiOk then
      if o.setHighOk then (.ok (response % 256), .high)
      else (.error .PinError, .low)
    else (.error .SPIError, .low)
  else (.error .PinError, ncs)

/-- Source `Max31865::new`: drives chip-select high and sets the default
calibration (`40000`, ohms times 100). -/
structure DriverState where
  ncs : PinLevel
  calibration : Nat

/-- The state produced by a successful `Max31865::new`. -/
def new_state : DriverState :=
  { ncs := .high, calibration := 40000 }

/-- The arithmetic of `Max31865::read_ohms`:
`((raw >> 1) as u32 * self.calibration) >> 15`, with the `u32` multiply
wrapping modulo `2^32` (release semantics). -/
def read_ohms_value (calibration raw : Nat) : Nat :=
  (((raw >>> 1) * calibration) % 2 ^ 32) >>> 15

/-- Reinterpretation `as i32` of a `u32` value (`ohms as i32` in
`read_default_conversion`). -/
def i32cast (n : Nat) : Int :=
  if n < 2 ^ 31 then (n : Int) else (n : Int) - 2 ^ 32

/-- Source `Max31865::read_ohms` at the `Result` level: `read_raw()?` then
the fixed-point multiply.  The raw read's outcome is a parameter. -/
def read_ohms_result (calibration : Nat) (raw : Except DriverError Nat) :
    Except DriverError Nat :=
  raw.bind fun r => .ok (read_ohms_value calibration r)

/-- Source `Max31865::read_default_conversion`: `read_ohms()?`, then
`temp_conversion::LOOKUP_VEC_PT100.lookup_temperature(ohms as i32)`.  The
table is the full PT100 table unconditionally. -/
def read_default_conversion_result (calibration : Nat)
    (raw : Except DriverError Nat) : Except DriverError Int :=
  (read_ohms_result calibration raw).bind fun ohms =>
    .ok (lookup_temperature LOOKUP_VEC_PT100 (i32cast ohms))

/-! ## Theorems -/

/-! ### Supporting lemmas: sorted lists and the insertion point -/

theorem getD_eq_get (l : List Int) (n : Nat) (h : n < l.length) :
    l.getD n 0 = l.get ⟨n, h⟩ := by
  rw [List.getD_eq_getElem l 0 h, List.get_eq_getElem]

theorem sorted_getD_lt {l : List Int} (hs : List.Pairwise (· < ·) l) {i j : Nat}
    (hij : i < j) (hj : j < l.length) : l.getD i 0 < l.getD j 0 := by
  have hi : i < l.length := lt_trans hij hj
  rw [getD_eq_get l i hi, getD_eq_get l j hj]
  exact List.pairwise_iff_get.mp hs ⟨i, hi⟩ ⟨j, hj⟩ hij

theorem sorted_getD_le {l : List Int} (hs : List.Pairwise (· < ·) l) {i j : Nat}
    (hij : i ≤ j) (hj : j < l.length) : l.getD i 0 ≤ l.getD j 0 := by
  rcases eq_or_lt_of_le hij with rfl | h
  · exact le_refl _
  · exact (sorted_getD_lt hs h hj).le

theorem insertionPoint_le_length (l : List Int) (v : Int) :
    insertionPoint l v ≤ l.length := by
  induction l with
  | nil => simp [insertionPoint]
  | cons x xs ih =>
      by_cases h : v ≤ x <;> simp [insertionPoint, h]
      omega

theorem getD_lt_of_lt_insertionPoint {l : List Int} {v : Int} {i : Nat}
    (h : i < insertionPoint l v) : l.getD i 0 < v := by
  induction l generalizing i with
  | nil => simp [insertionPoint] at h
  | cons x xs ih =>
      by_cases hx : v ≤ x
      · simp [insertionPoint, hx] at h
      · rw [insertionPoint] at h
        simp only [if_neg hx] at h
        cases i with
        | zero => exact lt_of_not_le hx
        | succ i => exact ih (by omega)

theorem insertionPoint_le_of_le {l : List Int} {v : Int} {i : Nat}
    (h : v ≤ l.getD i 0) : insertionPoint l v ≤ i := by
  by_contra hc
  exact absurd (getD_lt_of_lt_insertionPoint (lt_of_not_le hc)) (not_lt.mpr h)

theorem le_getD_insertionPoint {l : List Int} {v : Int}
    (h : insertionPoint l v < l.length) : v ≤ l.getD (insertionPoint l v) 0 := by
  induction l with
  | nil => simp [insertionPoint] at h
  | cons x xs ih =>
      by_cases hx : v ≤ x
      · rw [insertionPoint, if_pos hx]
        exact hx
      · rw [insertionPoint] at h ⊢
        simp only [if_neg hx] at h ⊢
        rw [List.getD_cons_succ]
        exact ih (by simp only [List.length_cons] at h; omega)

theorem lt_insertionPoint_of_getD_lt {l : List Int} {v : Int} {i : Nat}
    (hs : List.Pairwise (· < ·) l) (hi : i < l.length) (h : l.getD i 0 < v) :
    i < insertionPoint l v := by
  by_contra hc
  push_neg at hc
  have h1 : v ≤ l.getD (insertionPoint l v) 0 :=
    le_getD_insertionPoint (lt_of_le_of_lt hc hi)
  have h2 : l.getD (insertionPoint l v) 0 ≤ l.getD i 0 := sorted_getD_le hs hc hi
  omega

theorem tdiv_le_tdiv_right {a b d : Int} (hd : 0 < d) (h : a ≤ b) :
    a.tdiv d ≤ b.tdiv d := by
  rcases le_or_lt 0 a with ha | ha
  · rw [Int.tdiv_eq_ediv ha hd.le, Int.tdiv_eq_ediv (ha.trans h) hd.le]
    exact Int.ediv_le_ediv hd h
  · rcases le_or_lt 0 b with hb | hb
    · have h1 : a.tdiv d ≤ 0 := by
        have h2 : (0 : Int) ≤ (-a).tdiv d := Int.tdiv_nonneg (by omega) hd.le
        rw [Int.neg_tdiv] at h2
        omega
      exact h1.trans (Int.tdiv_nonneg hb hd.le)
    · have h3 : (-b).tdiv d ≤ (-a).tdiv d := by
        rw [Int.tdiv_eq_ediv (by omega) hd.le, Int.tdiv_eq_ediv (by omega) hd.le]
        exact Int.ediv_le_ediv hd (by omega)
      rw [Int.neg_tdiv, Int.neg_tdiv] at h3
      omega

/-- In the middle branch of `lookup_temperature` (input between the lower
and upper interpolation bounds of a strictly sorted table), the selected
segment index lies in `[1, len-2]` and brackets the input; moreover the
`Err` arm of the search only ever sees an insertion point `≥ 2`, so the
`val - 1` subtraction cannot underflow. -/
theorem middle_zone {t : LookupTable} {r : Int}
    (hs : List.Pairwise (· < ·) t.data) (hlen : 2 ≤ t.data.length)
    (h1 : ohm_lower_bound t ≤ r) (h2 : r ≤ ohm_upper_bound t) :
    1 ≤ searchIndex t.data r ∧ searchIndex t.data r + 1 < t.data.length ∧
    lookup t (searchIndex t.data r) ≤ r ∧ r ≤ lookup t (searchIndex t.data r + 1) ∧
    (∀ v, binary_search t.data r = .error v → 2 ≤ v ∧ v - 1 = searchIndex t.data r) ∧
    (∀ v, binary_search t.data r = .ok v → v = searchIndex t.data r) := by
  have h1g : t.data.getD 1 0 ≤ r := h1
  have hlen3 : 3 ≤ t.data.length := by
    by_contra hcl
    have hl2 : t.data.length - 2 = 0 := by omega
    have h01 : t.data.getD 0 0 < t.data.getD 1 0 := sorted_getD_lt hs (by omega) (by omega)
    have h2' : r ≤ t.data.getD 0 0 := by
      have h2g : r ≤ t.data.getD (t.data.length - 2) 0 := h2
      rwa [hl2] at h2g
    omega
  have h2g : r ≤ t.data.getD (t.data.length - 2) 0 := h2
  have h0r : t.data.getD 0 0 < r :=
    lt_of_lt_of_le (sorted_getD_lt hs (by omega) (by omega)) h1g
  have hip1 : 0 < insertionPoint t.data r :=
    lt_insertionPoint_of_getD_lt hs (by omega) h0r
  have hlast : r < t.data.getD (t.data.length - 1) 0 :=
    lt_of_le_of_lt h2g (sorted_getD_lt hs (by omega) (by omega))
  have hipN : insertionPoint t.data r ≤ t.data.length - 1 :=
    insertionPoint_le_of_le hlast.le
  by_cases hc : insertionPoint t.data r < t.data.length ∧
      t.data.getD (insertionPoint t.data r) 0 = r
  · have hbs : binary_search t.data r = .ok (insertionPoint t.data r) := by
      unfold binary_search
      rw [if_pos hc]
    have hsi : searchIndex t.data r = insertionPoint t.data r := by
      simp only [searchIndex, hbs]
    have hne : insertionPoint t.data r ≠ t.data.length - 1 := by
      intro he
      rw [he] at hc
      omega
    have hip2 : insertionPoint t.data r + 1 < t.data.length := by omega
    refine ⟨by omega, by rw [hsi]; exact hip2, ?_, ?_, ?_, ?_⟩
    · rw [hsi]
      exact le_of_eq hc.2
    · rw [hsi]
      have hnext := sorted_getD_lt hs
        (show insertionPoint t.data r < insertionPoint t.data r + 1 by omega) hip2
      have hceq := hc.2
      show r ≤ t.data.getD (insertionPoint t.data r + 1) 0
      omega
    · intro v hv
      rw [hbs] at hv
      exact Except.noConfusion hv
    · intro v hv
      rw [hbs] at hv
      injection hv with h
      rw [hsi]
      omega
  · have hbs : binary_search t.data r = .error (insertionPoint t.data r) := by
      unfold binary_search
      rw [if_neg hc]
    have hsi : searchIndex t.data r = insertionPoint t.data r - 1 := by
      simp only [searchIndex, hbs]
    have hiplen : insertionPoint t.data r < t.data.length := by omega
    have hip2 : 2 ≤ insertionPoint t.data r := by
      rcases Nat.lt_or_ge (insertionPoint t.data r) 2 with hlt | hge
      · have hie : insertionPoint t.data r = 1 := by omega
        refine absurd ⟨hiplen, ?_⟩ hc
        rw [hie]
        have hr1 : r ≤ t.data.getD 1 0 := by
          have hg := le_getD_insertionPoint (l := t.data) (v := r) hiplen
          rwa [hie] at hg
        omega
      · exact hge
    have hret : insertionPoint t.data r - 1 + 1 = insertionPoint t.data r := by omega
    refine ⟨by omega, by rw [hsi]; omega, ?_, ?_, ?_, ?_⟩
    · rw [hsi]
      exact (getD_lt_of_lt_insertionPoint (by omega)).le
    · rw [hsi, hret]
      exact le_getD_insertionPoint hiplen
    · intro v hv
      rw [hbs] at hv
      injection hv with h
      rw [hsi]
      omega
    · intro v hv
      rw [hbs] at hv
      exact Except.noConfusion hv

/-! ### Supporting lemmas: the checked variant never faults -/

theorem get?_eq_some_getD {l : List Int} {n : Nat} (h : n < l.length) :
    l.get? n = some (l.getD n 0) := by
  rw [List.get?_eq_get h, getD_eq_get l n h]

theorem interpolate_indexChecked_eq {t : LookupTable} {r : Int} {idx : Nat}
    (h : idx + 1 < t.data.length) (hd : t.data.getD idx 0 < t.data.getD (idx + 1) 0) :
    interpolate_indexChecked t r idx = some (interpolate_index t r idx) := by
  have h0 : idx < t.data.length := by omega
  unfold interpolate_indexChecked lookupChecked
  rw [get?_eq_some_getD h0, get?_eq_some_getD h]
  simp only [Option.bind_eq_bind, Option.some_bind]
  unfold interpolateChecked
  dsimp only
  rw [if_neg (show ¬(t.data.getD (idx + 1) 0 - t.data.getD idx 0 = 0) by omega)]
  rfl

/-- The checked lookup never faults on a strictly sorted table with at
least two samples: every slice index is in bounds, the interpolation
denominator is nonzero, and the `val - 1` arm never underflows. -/
theorem lookup_temperatureChecked_eq {t : LookupTable}
    (hs : List.Pairwise (· < ·) t.data) (hlen : 2 ≤ t.data.length) (r : Int) :
    lookup_temperatureChecked t r = some (lookup_temperature t r) := by
  have h1l : 1 < t.data.length := by omega
  have h2l : t.data.length - 2 < t.data.length := by omega
  unfold lookup_temperatureChecked lookup_temperature ohm_lower_bound ohm_upper_bound lookup
  unfold lookupChecked
  rw [get?_eq_some_getD h1l, get?_eq_some_getD h2l]
  show (if r < t.data.getD 1 0 then interpolate_indexChecked t r 0
    else if r > t.data.getD (t.data.length - 2) 0 then
      interpolate_indexChecked t r (t.data.length - 2)
    else match binary_search t.data r with
      | .ok val => interpolate_indexChecked t r val
      | .error val =>
          if val = 0 then none else interpolate_indexChecked t r (val - 1)) = _
  by_cases hA : r < t.data.getD 1 0
  · rw [if_pos hA, if_pos hA]
    exact interpolate_indexChecked_eq (by omega) (sorted_getD_lt hs (by omega) h1l)
  · rw [if_neg hA, if_neg hA]
    by_cases hB : r > t.data.getD (t.data.length - 2) 0
    · rw [if_pos hB, if_pos hB]
      have hlast : t.data.length - 2 + 1 = t.data.length - 1 := by omega
      refine interpolate_indexChecked_eq (by omega) ?_
      rw [hlast]
      exact sorted_getD_lt hs (by omega) (by omega)
    · rw [if_neg hB, if_neg hB]
      push_neg at hA hB
      obtain ⟨hm1, hm2, hm3, hm4, herr, hok⟩ := middle_zone hs hlen hA hB
      have hseg : t.data.getD (searchIndex t.data r) 0 <
          t.data.getD (searchIndex t.data r + 1) 0 :=
        sorted_getD_lt hs (by omega) hm2
      cases hbs : binary_search t.data r with
      | error v =>
          obtain ⟨hv2, hveq⟩ := herr v hbs
          dsimp only
          rw [if_neg (show ¬v = 0 by omega), hveq]
          exact interpolate_indexChecked_eq (by omega) hseg
      | ok v =>
          dsimp only
          rw [hok v hbs]
          exact interpolate_indexChecked_eq (by omega) hseg

/-! ### Supporting lemmas: interpolation on one segment -/

theorem reverse_index_succ_sub (t : LookupTable) (i : Nat) :
    reverse_index t (i + 1) - reverse_index t i = t.step * 100 := by
  unfold reverse_index
  push_cast
  ring

theorem reverse_index_mono {t : LookupTable} (hstep : 0 ≤ t.step) {i j : Nat}
    (hij : i ≤ j) : reverse_index t i ≤ reverse_index t j := by
  unfold reverse_index
  have h : (i : Int) * t.step ≤ (j : Int) * t.step :=
    mul_le_mul_of_nonneg_right (by exact_mod_cast hij) hstep
  linarith

theorem interpolate_index_mono {t : LookupTable} {i : Nat} {r1 r2 : Int}
    (hstep : 0 ≤ t.step) (hres : lookup t i < lookup t (i + 1)) (h : r1 ≤ r2) :
    interpolate_index t r1 i ≤ interpolate_index t r2 i := by
  unfold interpolate_index interpolate
  dsimp only
  have htd : 0 ≤ reverse_index t (i + 1) - reverse_index t i := by
    rw [reverse_index_succ_sub]
    exact mul_nonneg hstep (by norm_num)
  refine add_le_add_right (tdiv_le_tdiv_right (by omega) ?_) _
  exact mul_le_mul_of_nonneg_left (sub_le_sub_right h _) htd

theorem interpolate_index_left_knot {t : LookupTable} (i : Nat) :
    interpolate_index t (lookup t i) i = reverse_index t i := by
  unfold interpolate_index interpolate
  dsimp only
  rw [sub_self, mul_zero, Int.zero_tdiv, zero_add]

theorem interpolate_index_right_knot {t : LookupTable} {i : Nat}
    (hres : lookup t i < lookup t (i + 1)) :
    interpolate_index t (lookup t (i + 1)) i = reverse_index t (i + 1) := by
  unfold interpolate_index interpolate
  dsimp only
  rw [Int.mul_tdiv_cancel _ (by omega : lookup t (i + 1) - lookup t i ≠ 0)]
  ring

/-- Every input falls in a zone whose selected segment `i` is valid
(`i + 1 < len`) and semi-brackets the input: the table value at `i` is
below the input unless `i = 0`, and the value at `i + 1` is above it
unless `i` is the last segment. -/
theorem lookup_temperature_zone (t : LookupTable) (r : Int)
    (hs : List.Pairwise (· < ·) t.data) (hlen : 2 ≤ t.data.length) :
    ∃ i : Nat, lookup_temperature t r = interpolate_index t r i ∧
      i + 1 < t.data.length ∧
      (i = 0 ∨ lookup t i ≤ r) ∧
      (i = t.data.length - 2 ∨ r ≤ lookup t (i + 1)) := by
  unfold lookup_temperature
  by_cases hA : r < ohm_lower_bound t
  · rw [if_pos hA]
    exact ⟨0, rfl, by omega, Or.inl rfl, Or.inr (le_of_lt hA)⟩
  · rw [if_neg hA]
    by_cases hB : r > ohm_upper_bound t
    · rw [if_pos hB]
      exact ⟨t.data.length - 2, rfl, by omega, Or.inr (le_of_lt hB), Or.inl rfl⟩
    · rw [if_neg hB]
      push_neg at hA hB
      obtain ⟨hm1, hm2, hm3, hm4, _, _⟩ := middle_zone hs hlen hA hB
      exact ⟨searchIndex t.data r, rfl, hm2, Or.inr hm3, Or.inr hm4⟩

/-- Claim C1, counterexample: in a register transaction whose chip-select
assertion succeeds and whose bus operation fails, both `write` and
`read_many` return `SPIError` with chip-select still asserted (low) — the
`?` operator propagates the bus error before `ncs.set_high()` runs, so the
claim that chip-select is always deasserted before returning is false. -/
theorem chip_select_not_deasserted_on_spi_failure :
    writeTxn .high ⟨true, false, true⟩ = (.error .SPIError, .low) ∧
    readTxn .high ⟨true, false, true⟩ 0 = (.error .SPIError, .low) :=
  ⟨rfl, rfl⟩

/-- Claim C1, amended: chip-select is deasserted before returning on every
successful transaction, but when the bus write or transfer fails
mid-transaction the driver propagates `SPIError` immediately and leaves
chip-select asserted (low). -/
theorem chip_select_framing (ncs : PinLevel) (o : TxnOutcome) (resp : Nat) :
    ((writeTxn ncs o).1 = .ok () → (writeTxn ncs o).2 = .high) ∧
    ((readTxn ncs o resp).1.isOk = true → (readTxn ncs o resp).2 = .high) ∧
    (o.setLowOk = true → o.spiOk = false →
      (writeTxn ncs o).1 = .error .SPIError ∧ (writeTxn ncs o).2 = .low ∧
      (readTxn ncs o resp).1 = .error .SPIError ∧ (readTxn ncs o resp).2 = .low) := by
  obtain ⟨sl, sp, sh⟩ := o
  cases sl <;> cases sp <;> cases sh <;>
    simp [writeTxn, readTxn, Except.isOk, Except.toBool]

/-- Witness for `chip_select_framing` at concrete transactions. -/
theorem chip_select_framing_witness :
    (writeTxn .high ⟨true, true, true⟩).2 = .high ∧
    (readTxn .high ⟨true, true, true⟩ 7).2 = .high ∧
    (writeTxn .low ⟨true, false, true⟩).2 = .low :=
  ⟨(chip_select_framing .high ⟨true, true, true⟩ 7).1 rfl,
   (chip_select_framing .high ⟨true, true, true⟩ 7).2.1 rfl,
   ((chip_select_framing .low ⟨true, false, true⟩ 0).2.2 rfl rfl).2.1⟩

/-- Claim C6, counterexample: the temperature grid of both full tables
tops out at 780 °C (fixed point 78000), not at the claimed +800 °C: with
50 samples from −200 °C in 20 °C steps the last grid point is
−200 + 49·20 = 780. -/
theorem full_tables_top_is_780 :
    reverse_index LOOKUP_VEC_PT100 (LOOKUP_VEC_PT100.data.length - 1) = 78000 ∧
    reverse_index LOOKUP_VEC_PT1000 (LOOKUP_VEC_PT1000.data.length - 1) = 78000 ∧
    (78000 : Int) < 80000 := by
  decide

/-- Claim C6, amended: both full constant tables have at least 2 samples,
strictly increasing resistance values, and a temperature grid that is an
arithmetic progression from −200 °C in fixed 20 °C steps, covering
−200 °C up to +780 °C. -/
theorem full_tables_invariant :
    (2 ≤ LOOKUP_VEC_PT100.data.length ∧
      List.Pairwise (· < ·) LOOKUP_VEC_PT100.data ∧
      LOOKUP_VEC_PT100.min = -200 ∧ LOOKUP_VEC_PT100.step = 20 ∧
      reverse_index LOOKUP_VEC_PT100 0 = -200 * 100 ∧
      (∀ j : Nat, reverse_index LOOKUP_VEC_PT100 (j + 1) -
        reverse_index LOOKUP_VEC_PT100 j = 20 * 100) ∧
      reverse_index LOOKUP_VEC_PT100 (LOOKUP_VEC_PT100.data.length - 1) = 780 * 100) ∧
    (2 ≤ LOOKUP_VEC_PT1000.data.length ∧
      List.Pairwise (· < ·) LOOKUP_VEC_PT1000.data ∧
      LOOKUP_VEC_PT1000.min = -200 ∧ LOOKUP_VEC_PT1000.step = 20 ∧
      reverse_index LOOKUP_VEC_PT1000 0 = -200 * 100 ∧
      (∀ j : Nat, reverse_index LOOKUP_VEC_PT1000 (j + 1) -
        reverse_index LOOKUP_VEC_PT1000 j = 20 * 100) ∧
      reverse_index LOOKUP_VEC_PT1000 (LOOKUP_VEC_PT1000.data.length - 1) = 780 * 100) := by
  refine ⟨⟨by decide, by decide, by decide, by decide, by decide, ?_, by decide⟩,
          ⟨by decide, by decide, by decide, by decide, by decide, ?_, by decide⟩⟩ <;>
    · intro j
      simp only [reverse_index, LOOKUP_VEC_PT100, LOOKUP_VEC_PT1000]
      push_cast
      ring

/-- Claim C2, counterexample: the claimed formula equality fails on the
program for tables within the claim's scope, because the source computes
the interpolation numerator in `i32`, which wraps in a release build.  On
`LOOKUP_TABLE_WIDE` (strictly increasing samples in the nonnegative `i32`
range) at input 1500000000 — strictly between the two consecutive table
resistances — the bit-level lookup returns 1 while the claimed truncated
linear interpolation gives 1500 (a debug build panics on the overflow
instead). -/
theorem lookup32_interpolation_wraps :
    List.Pairwise (· < ·) LOOKUP_TABLE_WIDE.data ∧
    Entries32 LOOKUP_TABLE_WIDE ∧
    0 + 1 < LOOKUP_TABLE_WIDE.data.length ∧
    lookup LOOKUP_TABLE_WIDE 0 < 1500000000 ∧
    (1500000000 : Int) < lookup LOOKUP_TABLE_WIDE 1 ∧
    lookup_temperature32 LOOKUP_TABLE_WIDE 1500000000 = 1 ∧
    specInterpolation LOOKUP_TABLE_WIDE 0 1500000000 = 1500 := by
  refine ⟨by decide, ?_, by decide, by decide, by decide, by decide, by decide⟩
  unfold Entries32
  decide

/-- Claim C2, amended: for every table with strictly increasing
resistance samples and an input strictly between two consecutive table
resistances `res[i] < r < res[i+1]`, the lookup computed with
overflow-free integer arithmetic equals the spec's integer-truncated
linear interpolation between those two table points (`specInterpolation`,
with `temp[j] = (min + j*step) * 100`); the `i32` implementation
coincides with this wherever its intermediate arithmetic stays in `i32`
range — as on all in-range inputs of the shipped tables — but wraps on
tables with wide segments (`lookup32_interpolation_wraps`). -/
theorem lookup_interpolation_ideal (t : LookupTable) (i : Nat) (r : Int)
    (hs : List.Pairwise (· < ·) t.data) (_hE : Entries32 t)
    (hi : i + 1 < t.data.length)
    (hlo : lookup t i < r) (hhi : r < lookup t (i + 1)) :
    lookup_temperature t r = specInterpolation t i r := by
  have hrfl : interpolate_index t r i = specInterpolation t i r := rfl
  rw [← hrfl]
  unfold lookup_temperature
  by_cases hA : r < ohm_lower_bound t
  · rw [if_pos hA]
    have hi0 : i = 0 := by
      by_contra h0
      have h1i : 1 ≤ i := by omega
      have hmono : t.data.getD 1 0 ≤ t.data.getD i 0 := sorted_getD_le hs h1i (by omega)
      have hA' : r < t.data.getD 1 0 := hA
      have hlo' : t.data.getD i 0 < r := hlo
      omega
    rw [hi0]
  · rw [if_neg hA]
    by_cases hB : r > ohm_upper_bound t
    · rw [if_pos hB]
      have hieq : i = t.data.length - 2 := by
        have hB' : t.data.getD (t.data.length - 2) 0 < r := hB
        have hhi' : r < t.data.getD (i + 1) 0 := hhi
        by_contra hne
        have hle : i + 1 ≤ t.data.length - 2 := by omega
        have hmono : t.data.getD (i + 1) 0 ≤ t.data.getD (t.data.length - 2) 0 :=
          sorted_getD_le hs hle (by omega)
        omega
      rw [hieq]
    · rw [if_neg hB]
      push_neg at hA hB
      obtain ⟨hm1, hm2, hm3, hm4, _herr, _hok⟩ := middle_zone hs (by omega) hA hB
      have hsi : searchIndex t.data r = i := by
        rcases lt_trichotomy (searchIndex t.data r) i with hlt | heq | hgt
        · have hle : searchIndex t.data r + 1 ≤ i := by omega
          have h5 : t.data.getD (searchIndex t.data r + 1) 0 ≤ t.data.getD i 0 :=
            sorted_getD_le hs hle (by omega)
          have hm4' : r ≤ t.data.getD (searchIndex t.data r + 1) 0 := hm4
          have hlo' : t.data.getD i 0 < r := hlo
          omega
        · exact heq
        · have hle : i + 1 ≤ searchIndex t.data r := by omega
          have h5 : t.data.getD (i + 1) 0 ≤ t.data.getD (searchIndex t.data r) 0 :=
            sorted_getD_le hs hle (by omega)
          have hm3' : t.data.getD (searchIndex t.data r) 0 ≤ r := hm3
          have hhi' : r < t.data.getD (i + 1) 0 := hhi
          omega
      rw [hsi]

/-- Witness for `lookup_interpolation_ideal`: the full PT100 table at
101.00 Ω, strictly between samples 10 and 11. -/
theorem lookup_interpolation_ideal_witness :
    lookup_temperature LOOKUP_VEC_PT100 10100 = specInterpolation LOOKUP_VEC_PT100 10 10100 :=
  lookup_interpolation_ideal LOOKUP_VEC_PT100 10 10100
    (by decide) (by unfold Entries32; decide) (by decide) (by decide) (by decide)

/-- Claim C3, counterexample: with the release-mode `i32` wrapping
semantics of the source, `lookup_temperature` is not monotone over the
entire integer input range — in the upper extrapolation region of the full
PT100 table the numerator `2000 * (r - 36367)` overflows `i32` between the
consecutive inputs 1110108 and 1110109, and the result jumps from 3631433
down to -3479435. -/
theorem lookup32_not_monotone :
    (1110108 : Int) ≤ 1110109 ∧
    lookup_temperature32 LOOKUP_VEC_PT100 1110109 <
      lookup_temperature32 LOOKUP_VEC_PT100 1110108 := by
  decide

/-- Claim C3, amended: for every table with strictly increasing
resistance samples and positive temperature step, the lookup computed with
unbounded (overflow-free) integer arithmetic is monotonically
non-decreasing over the whole integer range, across segment boundaries and
in both extrapolation regions; the `i32` implementation coincides with it
wherever its intermediate arithmetic does not wrap, and is therefore
monotone only there. -/
theorem lookup_monotone_ideal (t : LookupTable)
    (hs : List.Pairwise (· < ·) t.data) (_hE : Entries32 t)
    (hlen : 2 ≤ t.data.length) (hstep : 0 < t.step) :
    ∀ r1 r2 : Int, r1 ≤ r2 →
      lookup_temperature t r1 ≤ lookup_temperature t r2 := by
  intro r1 r2 hr
  obtain ⟨i, hf1, hilen, hiL, hiR⟩ := lookup_temperature_zone t r1 hs hlen
  obtain ⟨j, hf2, hjlen, hjL, hjR⟩ := lookup_temperature_zone t r2 hs hlen
  rw [hf1, hf2]
  have hres : ∀ k, k + 1 < t.data.length → lookup t k < lookup t (k + 1) :=
    fun k hk => sorted_getD_lt hs (by omega) hk
  rcases lt_trichotomy i j with hij | hij | hij
  · have hr1le : r1 ≤ lookup t (i + 1) := by
      rcases hiR with he | hle
      · exfalso
        omega
      · exact hle
    have hjpos : lookup t j ≤ r2 := by
      rcases hjL with he | hle
      · exfalso
        omega
      · exact hle
    calc interpolate_index t r1 i
        ≤ interpolate_index t (lookup t (i + 1)) i :=
          interpolate_index_mono hstep.le (hres i hilen) hr1le
      _ = reverse_index t (i + 1) := interpolate_index_right_knot (hres i hilen)
      _ ≤ reverse_index t j := reverse_index_mono hstep.le (by omega)
      _ = interpolate_index t (lookup t j) j := (interpolate_index_left_knot j).symm
      _ ≤ interpolate_index t r2 j :=
          interpolate_index_mono hstep.le (hres j hjlen) hjpos
  · subst hij
    exact interpolate_index_mono hstep.le (hres i hilen) hr
  · have hiLe : lookup t i ≤ r1 := by
      rcases hiL with he | hle
      · exfalso
        omega
      · exact hle
    have hjRe : r2 ≤ lookup t (j + 1) := by
      rcases hjR with he | hle
      · exfalso
        omega
      · exact hle
    have hieq : i = j + 1 := by
      by_contra hne
      have hlt : j + 1 < i := by omega
      have hstrict : lookup t (j + 1) < lookup t i := sorted_getD_lt hs hlt (by omega)
      omega
    subst hieq
    have hreq1 : r1 = lookup t (j + 1) := by
      have hchain : lookup t (j + 1) ≤ lookup t (j + 1) := le_refl _
      omega
    have hreq2 : r2 = lookup t (j + 1) := by omega
    rw [hreq1, hreq2, interpolate_index_left_knot (j + 1),
      interpolate_index_right_knot (hres j hjlen)]

/-- Witness for `lookup_monotone_ideal` on the full PT100 table. -/
theorem lookup_monotone_ideal_witness :
    lookup_temperature LOOKUP_VEC_PT100 10000 ≤ lookup_temperature LOOKUP_VEC_PT100 20000 :=
  lookup_monotone_ideal LOOKUP_VEC_PT100 (by decide) (by unfold Entries32; decide)
    (by decide) (by decide) 10000 20000 (by decide)

/-- Claim C4: `lookup_temperature` is total on each shipped constant
table: for every integer input the fault-checked evaluation (bounds-checked
indexing, guarded `val - 1`, nonzero denominator) succeeds and returns the
same temperature as the total model, with no input constraints. -/
theorem lookup_total_on_shipped_tables :
    (∀ r : Int, lookup_temperatureChecked LOOKUP_TABLE_PT100_SHORT r =
      some (lookup_temperature LOOKUP_TABLE_PT100_SHORT r)) ∧
    (∀ r : Int, lookup_temperatureChecked LOOKUP_VEC_PT100 r =
      some (lookup_temperature LOOKUP_VEC_PT100 r)) ∧
    (∀ r : Int, lookup_temperatureChecked LOOKUP_VEC_PT1000 r =
      some (lookup_temperature LOOKUP_VEC_PT1000 r)) :=
  ⟨fun r => lookup_temperatureChecked_eq (by decide) (by decide) r,
   fun r => lookup_temperatureChecked_eq (by decide) (by decide) r,
   fun r => lookup_temperatureChecked_eq (by decide) (by decide) r⟩

/-- Claim C5, counterexample: "continuing the slope of the nearest edge
segment with no failure" fails on the program for inputs far above the
table: on the shipped full PT100 table at 1110109 the `i32` numerator
`2000 * (1110109 - 36367)` wraps in a release build and the bit-level
lookup returns -3479435 instead of the linear continuation 3631437 of the
second-to-last segment (a debug build panics on the overflow instead). -/
theorem lookup32_extrapolation_wraps :
    ohm_upper_bound LOOKUP_VEC_PT100 < 1110109 ∧
    lookup_temperature32 LOOKUP_VEC_PT100 1110109 = -3479435 ∧
    specInterpolation LOOKUP_VEC_PT100 (LOOKUP_VEC_PT100.data.length - 2) 1110109 =
      3631437 := by
  decide

/-- Claim C5, amended: below the lower interpolation bound the lookup
uses segment 0, above the upper bound the second-to-last segment, in both
cases continuing the slope of the nearest edge segment with the same
interpolation formula (`specInterpolation`) evaluated in overflow-free
integer arithmetic, with no clamping and no failure (the checked
evaluation succeeds); the `i32` implementation coincides with this only
while the extrapolated arithmetic stays within `i32` range, and wraps for
extreme inputs (`lookup32_extrapolation_wraps`). -/
theorem lookup_extrapolation_edges_ideal (t : LookupTable) (r : Int)
    (hs : List.Pairwise (· < ·) t.data) (_hE : Entries32 t)
    (hlen : 2 ≤ t.data.length) :
    (r < ohm_lower_bound t →
      lookup_temperature t r = specInterpolation t 0 r ∧
      lookup_temperatureChecked t r = some (lookup_temperature t r)) ∧
    (ohm_upper_bound t < r →
      lookup_temperature t r = specInterpolation t (t.data.length - 2) r ∧
      lookup_temperatureChecked t r = some (lookup_temperature t r)) := by
  constructor
  · intro hA
    refine ⟨?_, lookup_temperatureChecked_eq hs hlen r⟩
    unfold lookup_temperature
    rw [if_pos hA]
    rfl
  · intro hB
    refine ⟨?_, lookup_temperatureChecked_eq hs hlen r⟩
    unfold lookup_temperature
    by_cases hA : r < ohm_lower_bound t
    · rw [if_pos hA]
      have hl2 : t.data.length - 2 = 0 := by
        by_contra hne
        have h3 : 3 ≤ t.data.length := by omega
        have hmono : t.data.getD 1 0 ≤ t.data.getD (t.data.length - 2) 0 :=
          sorted_getD_le hs (by omega) (by omega)
        have hA' : r < t.data.getD 1 0 := hA
        have hB' : t.data.getD (t.data.length - 2) 0 < r := hB
        omega
      rw [hl2]
      rfl
    · rw [if_neg hA, if_pos hB]
      rfl

/-- Witness for `lookup_extrapolation_edges_ideal`: the full PT100 table
at 10.00 Ω (below range) and at 400.00 Ω (above range). -/
theorem lookup_extrapolation_edges_ideal_witness :
    lookup_temperature LOOKUP_VEC_PT100 1000 = specInterpolation LOOKUP_VEC_PT100 0 1000 ∧
    lookup_temperature LOOKUP_VEC_PT100 40000 =
      specInterpolation LOOKUP_VEC_PT100 (LOOKUP_VEC_PT100.data.length - 2) 40000 :=
  ⟨((lookup_extrapolation_edges_ideal LOOKUP_VEC_PT100 1000 (by decide)
      (by unfold Entries32; decide) (by decide)).1 (by decide)).1,
   ((lookup_extrapolation_edges_ideal LOOKUP_VEC_PT100 40000 (by decide)
      (by unfold Entries32; decide) (by decide)).2 (by decide)).1⟩

/-- Claim C7: datasheet reference points; values are fixed point scaled by
100.  For the full PT100 table `lookup_temperature 10000 = 0` (100.00 Ω is
0.00 °C) and `lookup_temperature 13851 = 10000`; for PT1000
`lookup_temperature 100000 = 0`. -/
theorem pt100_pt1000_reference_points :
    lookup_temperature LOOKUP_VEC_PT100 10000 = 0 ∧
    lookup_temperature LOOKUP_VEC_PT100 13851 = 10000 ∧
    lookup_temperature LOOKUP_VEC_PT1000 100000 = 0 := by
  decide

/-- Claim C8: `configure` packs its five arguments into one control byte
with bit 7 = vbias, bit 6 = conversion mode, bit 5 = one-shot,
bit 4 = sensor type, bit 0 = filter selector; the cited argument
combination encodes to `0b11010001` and the transaction frame writes that
byte to the configuration register (write address `0x80`). -/
theorem configure_byte_encoding :
    (∀ (vb cm os : Bool) (st : SensorType) (fm : FilterMode),
      (configure_conf vb cm os st fm).testBit 7 = vb ∧
      (configure_conf vb cm os st fm).testBit 6 = cm ∧
      (configure_conf vb cm os st fm).testBit 5 = os ∧
      (configure_conf vb cm os st fm).testBit 4 = decide (st = SensorType.ThreeWire) ∧
      (configure_conf vb cm os st fm).testBit 0 = decide (fm = FilterMode.Filter50Hz)) ∧
    configure_conf true true false .ThreeWire .Filter50Hz = 0b11010001 ∧
    configure_frame true true false .ThreeWire .Filter50Hz = [0x80, 0b11010001] := by
  refine ⟨?_, by decide, by decide⟩
  intro vb cm os st fm
  cases vb <;> cases cm <;> cases os <;> cases st <;> cases fm <;> decide

/-- Claim C9: `read_ohms` computes `((raw >> 1) * calibration) >> 15`,
first discarding the fault bit; whenever the `u32` product does not wrap
this is the exact integer value, and in particular for raw `0xFFFF` with
the default calibration `40000` set by `new` the result is exactly
`(0x7FFF * 40000) >> 15`. -/
theorem read_ohms_fixed_point (raw calibration : Nat)
    (_hraw : raw < 2 ^ 16) (hprod : (raw >>> 1) * calibration < 2 ^ 32) :
    read_ohms_value calibration raw = ((raw >>> 1) * calibration) >>> 15 ∧
    read_ohms_value new_state.calibration 0xFFFF = (0x7FFF * 40000) >>> 15 := by
  constructor
  · unfold read_ohms_value
    rw [Nat.mod_eq_of_lt hprod]
  · decide

/-- Witness for `read_ohms_fixed_point` at the datasheet full-scale raw
value and the default calibration. -/
theorem read_ohms_fixed_point_witness :
    read_ohms_value 40000 0xFFFF = ((0xFFFF >>> 1) * 40000) >>> 15 :=
  (read_ohms_fixed_point 0xFFFF 40000 (by decide) (by decide)).1

/-- Claim C10: `read_default_conversion` is exactly `read_ohms` composed
with the full-PT100-table lookup — a successful ohms value `v` yields
`Ok(lookup_temperature LOOKUP_VEC_PT100 v)` (the table is PT100 regardless
of configuration or calibration), and an error is propagated unchanged. -/
theorem read_default_conversion_composition (calibration : Nat)
    (raw : Except DriverError Nat) :
    read_default_conversion_result calibration raw =
      match read_ohms_result calibration raw with
      | .ok v => .ok (lookup_temperature LOOKUP_VEC_PT100 (i32cast v))
      | .error e => .error e := by
  cases raw <;> rfl

end Max31865
